import Mathlib

/-!
# Universal-Waveforms: verification of the waveform-synthesis core

Shallow embedding of `src/waveform/mode.py` (class `UniversalWaveMode`), the
waveform-synthesis engine of the Universal-Waveforms repository, together with
proofs of the specification claims about it.

Modelling conventions:
* Retarded times, the symmetric mass ratio `nu`, the multipolar indices and all
  phase/amplitude values are rationals: every IEEE double is a rational number,
  and the specification states the continuity properties in exact arithmetic.
* The four fitted polynomial models are external data (pickled files loaded by
  `_load_polynomial`); the core only calls them, so they are embedded as an
  opaque record of functions `ℚ → ℚ` (the Polynomial Model Provider of the
  spec).
* The constructor stores `self.u_cut_value = u_cut(self.nu)` once and the rest
  of the pipeline only reads that stored value.  The formula for `u_cut`
  involves the transcendental powers `nu ** (-0.2)` and `nu ** 0.2`, so the
  pipeline is embedded with the stored cutoff as an explicit parameter
  `u_cut_value : ℚ` and every theorem is proved for all possible values of
  that parameter, in particular for the value the program computes.  The
  real-valued formula itself is `u_cut` below.
* Python exceptions become an `Except SynthError` result; the non-fatal
  truncation warning of the validator becomes a boolean flag.
-/

namespace UniversalWaveforms

/-- The four fitted polynomial models, keyed by (regime, quantity).  In the
source they are loaded by `_load_polynomial` from the files
`adb_phase_polynomial.pkl`, `adb_amp_polynomial.pkl`,
`gui_phase_polynomial.pkl`, `gui_amp_polynomial.pkl`; the core treats each as
an opaque callable. -/
structure PolynomialProvider where
  adb_phase_polynomial : ℚ → ℚ
  adb_amp_polynomial : ℚ → ℚ
  gui_phase_polynomial : ℚ → ℚ
  gui_amp_polynomial : ℚ → ℚ

/-- Failure modes of the synthesis core.  In the source all three are raised
as `ValueError`: `invalidParameter` for the `nu`/`parity` checks of
`__init__` (lines 38-41 of mode.py), `emptyDomain` for the
no-segment branch of `_stitch_waveforms` (line 121), and `emptyInput` for the
`ValueError` that the builtin `min`/`max` raise on line 43 when the candidate
time array is empty. -/
inductive SynthError where
  | invalidParameter : SynthError
  | emptyDomain : SynthError
  | emptyInput : SynthError
  deriving DecidableEq

/-- A single-regime segment, the dict returned by `_generate_adiabatic_part`
and `_generate_gui_part`. -/
structure Segment where
  time : List ℚ
  phase : List ℚ
  amplitude : List ℚ
  waveform : List ℂ
  deriving Inhabited

/-- The final synthesized mode: the fields `time_array`, `phase`, `amplitude`,
`waveform` of the `UniversalWaveMode` instance after `__init__` returns. -/
structure WaveformResult where
  time_array : List ℚ
  phase : List ℚ
  amplitude : List ℚ
  waveform : List ℂ

/-- One complex waveform sample, `amplitude * np.exp(1.j * phase)`. -/
noncomputable def mkWaveform (amplitude phase : ℚ) : ℂ :=
  (amplitude : ℂ) * Complex.exp (Complex.I * (phase : ℂ))

/-- `UniversalWaveMode.u_cut` (mode.py line 167):
`-101.6 * nu ** -0.2 + 108.8 - 65 * nu ** 0.2`, in exact real arithmetic. -/
noncomputable def u_cut (nu : ℝ) : ℝ :=
  -101.6 * nu ^ (-0.2 : ℝ) + 108.8 - 65 * nu ^ (0.2 : ℝ)

/-- The adiabatic sub-grid `self.time_array[self.time_array <= self.u_cut_value]`
(mode.py line 64). -/
def adb_grid (u_cut_value : ℚ) (time_array : List ℚ) : List ℚ :=
  time_array.filter fun t => decide (t ≤ u_cut_value)

/-- The GUI sub-grid `self.time_array[self.time_array > self.u_cut_value]`
(mode.py line 65). -/
def gui_grid (u_cut_value : ℚ) (time_array : List ℚ) : List ℚ :=
  time_array.filter fun t => decide (u_cut_value < t)

/-- `_generate_adiabatic_part` (mode.py lines 75-86): rescale the grid as
`nu * (t - u_cut_value)`, evaluate the adiabatic phase polynomial there and
scale by `m / nu`, evaluate the adiabatic amplitude polynomial there, and form
`amplitude * exp(i * phase)`. -/
noncomputable def generate_adiabatic_part (P : PolynomialProvider)
    (nu m u_cut_value : ℚ) (time_grid : List ℚ) : Segment :=
  let nu_scaled_time := time_grid.map fun t => nu * (t - u_cut_value)
  let phase := nu_scaled_time.map fun τ => P.adb_phase_polynomial τ * m / nu
  let amplitude := nu_scaled_time.map P.adb_amp_polynomial
  let waveform := List.zipWith mkWaveform amplitude phase
  ⟨time_grid, phase, amplitude, waveform⟩

/-- `_generate_gui_part` (mode.py lines 88-97): evaluate the GUI phase and
amplitude polynomials directly on the unscaled grid and form
`amplitude * exp(i * phase)`. -/
noncomputable def generate_gui_part (P : PolynomialProvider)
    (time_grid : List ℚ) : Segment :=
  let phase := time_grid.map P.gui_phase_polynomial
  let amplitude := time_grid.map P.gui_amp_polynomial
  let waveform := List.zipWith mkWaveform amplitude phase
  ⟨time_grid, phase, amplitude, waveform⟩

/-- `_stitch_waveforms` (mode.py lines 99-121).  With both segments present it
computes `phase_shift = adiabatic.phase[-1] - gui.phase[0]`, subtracts it from
every adiabatic phase, multiplies every adiabatic waveform value by
`exp(-i * phase_shift)`, and appends; with one segment it passes it through
verbatim; with none it raises (`emptyDomain`).  Returns the
`(phase, amplitude, waveform)` triple the method stores on `self`. -/
noncomputable def stitch_waveforms (adiabatic gui : Option Segment) :
    Except SynthError (List ℚ × List ℚ × List ℂ) :=
  match adiabatic, gui with
  | some adb, some g =>
      let phase_shift := adb.phase.getLastD 0 - g.phase.headD 0
      .ok (adb.phase.map (fun φ => φ - phase_shift) ++ g.phase,
           adb.amplitude ++ g.amplitude,
           adb.waveform.map (fun w => w * Complex.exp (-Complex.I * (phase_shift : ℂ)))
             ++ g.waveform)
  | some adb, none => .ok (adb.phase, adb.amplitude, adb.waveform)
  | none, some g => .ok (g.phase, g.amplitude, g.waveform)
  | none, none => .error .emptyDomain

/-- `generate_waveform` (mode.py lines 60-73): partition the validated time
array at the stored cutoff, evaluate each non-empty sub-grid in its regime
(an empty sub-grid yields `None`), and stitch. -/
noncomputable def generate_waveform (P : PolynomialProvider)
    (nu m u_cut_value : ℚ) (time_array : List ℚ) :
    Except SynthError (List ℚ × List ℚ × List ℂ) :=
  let adb_time_grid := adb_grid u_cut_value time_array
  let gui_time_grid := gui_grid u_cut_value time_array
  let adiabatic := if adb_time_grid.isEmpty then none
    else some (generate_adiabatic_part P nu m u_cut_value adb_time_grid)
  let gui := if gui_time_grid.isEmpty then none
    else some (generate_gui_part P gui_time_grid)
  stitch_waveforms adiabatic gui

/-- The time-domain validation of `__init__` (mode.py lines 43-45):
if `min(time_array) < -2.5e2 / nu or max(time_array) > 100.` the array is
replaced by its in-range subsequence and a warning is logged (the boolean
flag).  `none` models the `ValueError` the builtin `min` raises on an empty
array. -/
def validate_time_array (nu : ℚ) (time_array : List ℚ) :
    Option (List ℚ × Bool) :=
  match time_array.min?, time_array.max? with
  | some mn, some mx =>
      if mn < -2.5e2 / nu ∨ (100.0 : ℚ) < mx then
        some (time_array.filter fun t =>
          decide (-2.5e2 / nu ≤ t) && decide (t ≤ 100.0), true)
      else
        some (time_array, false)
  | _, _ => none

/-- `UniversalWaveMode.__init__` (mode.py lines 20-58) followed by the
`generate_waveform` call it makes: check `0 < nu < 0.25`, check
`parity in ('e', 'o')`, validate the time array, then synthesize.  The
multipolar indices `l` and `m` are stored unchecked; `l` is never read by the
synthesis path.  `u_cut_value` stands for the stored `self.u_cut_value =
u_cut(self.nu)` (see the module docstring). -/
noncomputable def init (P : PolynomialProvider) (time_array : List ℚ) (nu : ℚ)
    (parity : String) (l m : ℚ) (u_cut_value : ℚ) :
    Except SynthError WaveformResult :=
  if ¬ (0 < nu ∧ nu < 0.25) then .error .invalidParameter
  else if ¬ (parity = "e" ∨ parity = "o") then .error .invalidParameter
  else
    match validate_time_array nu time_array with
    | none => .error .emptyInput
    | some (validated, _warned) =>
        match generate_waveform P nu m u_cut_value validated with
        | .ok (φ, a, w) => .ok ⟨validated, φ, a, w⟩
        | .error e => .error e

/-! ## Basic lemmas about the embedded operations -/

lemma generate_adiabatic_part_time (P : PolynomialProvider) (nu m c : ℚ)
    (g : List ℚ) : (generate_adiabatic_part P nu m c g).time = g := rfl

lemma generate_adiabatic_part_phase (P : PolynomialProvider) (nu m c : ℚ)
    (g : List ℚ) :
    (generate_adiabatic_part P nu m c g).phase =
      g.map fun t => P.adb_phase_polynomial (nu * (t - c)) * m / nu := by
  simp [generate_adiabatic_part, List.map_map, Function.comp]

lemma generate_adiabatic_part_amplitude (P : PolynomialProvider) (nu m c : ℚ)
    (g : List ℚ) :
    (generate_adiabatic_part P nu m c g).amplitude =
      g.map fun t => P.adb_amp_polynomial (nu * (t - c)) := by
  simp [generate_adiabatic_part, List.map_map, Function.comp]

lemma generate_adiabatic_part_waveform (P : PolynomialProvider) (nu m c : ℚ)
    (g : List ℚ) :
    (generate_adiabatic_part P nu m c g).waveform =
      List.zipWith mkWaveform (generate_adiabatic_part P nu m c g).amplitude
        (generate_adiabatic_part P nu m c g).phase := rfl

lemma generate_adiabatic_part_phase_length (P : PolynomialProvider)
    (nu m c : ℚ) (g : List ℚ) :
    (generate_adiabatic_part P nu m c g).phase.length = g.length := by
  simp [generate_adiabatic_part_phase]

lemma generate_adiabatic_part_amplitude_length (P : PolynomialProvider)
    (nu m c : ℚ) (g : List ℚ) :
    (generate_adiabatic_part P nu m c g).amplitude.length = g.length := by
  simp [generate_adiabatic_part_amplitude]

lemma generate_adiabatic_part_waveform_length (P : PolynomialProvider)
    (nu m c : ℚ) (g : List ℚ) :
    (generate_adiabatic_part P nu m c g).waveform.length = g.length := by
  simp [generate_adiabatic_part_waveform, List.length_zipWith,
    generate_adiabatic_part_phase_length, generate_adiabatic_part_amplitude_length]

lemma generate_gui_part_time (P : PolynomialProvider) (g : List ℚ) :
    (generate_gui_part P g).time = g := rfl

lemma generate_gui_part_phase (P : PolynomialProvider) (g : List ℚ) :
    (generate_gui_part P g).phase = g.map P.gui_phase_polynomial := rfl

lemma generate_gui_part_amplitude (P : PolynomialProvider) (g : List ℚ) :
    (generate_gui_part P g).amplitude = g.map P.gui_amp_polynomial := rfl

lemma generate_gui_part_waveform (P : PolynomialProvider) (g : List ℚ) :
    (generate_gui_part P g).waveform =
      List.zipWith mkWaveform (generate_gui_part P g).amplitude
        (generate_gui_part P g).phase := rfl

lemma generate_gui_part_phase_length (P : PolynomialProvider) (g : List ℚ) :
    (generate_gui_part P g).phase.length = g.length := by
  simp [generate_gui_part_phase]

lemma generate_gui_part_amplitude_length (P : PolynomialProvider) (g : List ℚ) :
    (generate_gui_part P g).amplitude.length = g.length := by
  simp [generate_gui_part_amplitude]

lemma generate_gui_part_waveform_length (P : PolynomialProvider) (g : List ℚ) :
    (generate_gui_part P g).waveform.length = g.length := by
  simp [generate_gui_part_waveform, List.length_zipWith,
    generate_gui_part_phase_length, generate_gui_part_amplitude_length]

/-- The two sub-grids partition the time array: their lengths add up. -/
lemma adb_grid_length_add_gui_grid_length (c : ℚ) (l : List ℚ) :
    (adb_grid c l).length + (gui_grid c l).length = l.length := by
  induction l with
  | nil => rfl
  | cons t ts ih =>
      by_cases h : t ≤ c
      · have h' : ¬ c < t := not_lt.mpr h
        simp only [adb_grid, gui_grid, List.filter_cons] at ih ⊢
        simp [h, h'] at ih ⊢
        omega
      · have h' : c < t := not_le.mp h
        simp only [adb_grid, gui_grid, List.filter_cons] at ih ⊢
        simp [h, h'] at ih ⊢
        omega

lemma mem_adb_grid (c : ℚ) (l : List ℚ) (t : ℚ) :
    t ∈ adb_grid c l ↔ t ∈ l ∧ t ≤ c := by
  simp [adb_grid, List.mem_filter]

lemma mem_gui_grid (c : ℚ) (l : List ℚ) (t : ℚ) :
    t ∈ gui_grid c l ↔ t ∈ l ∧ c < t := by
  simp [gui_grid, List.mem_filter]

/-- Explicit form of the both-segments branch of the stitcher. -/
lemma stitch_waveforms_both (adb g : Segment) :
    stitch_waveforms (some adb) (some g) =
      .ok (adb.phase.map (fun φ => φ - (adb.phase.getLastD 0 - g.phase.headD 0))
             ++ g.phase,
           adb.amplitude ++ g.amplitude,
           adb.waveform.map (fun w => w * Complex.exp
               (-Complex.I * ((adb.phase.getLastD 0 - g.phase.headD 0 : ℚ) : ℂ)))
             ++ g.waveform) := rfl

lemma stitch_waveforms_adb_only (adb : Segment) :
    stitch_waveforms (some adb) none = .ok (adb.phase, adb.amplitude, adb.waveform) := rfl

lemma stitch_waveforms_gui_only (g : Segment) :
    stitch_waveforms none (some g) = .ok (g.phase, g.amplitude, g.waveform) := rfl

lemma generate_waveform_both (P : PolynomialProvider) (nu m c : ℚ)
    (times : List ℚ) (h1 : adb_grid c times ≠ []) (h2 : gui_grid c times ≠ []) :
    generate_waveform P nu m c times =
      stitch_waveforms (some (generate_adiabatic_part P nu m c (adb_grid c times)))
        (some (generate_gui_part P (gui_grid c times))) := by
  simp [generate_waveform, List.isEmpty_eq_false.mpr h1, List.isEmpty_eq_false.mpr h2]

lemma generate_waveform_adb_only (P : PolynomialProvider) (nu m c : ℚ)
    (times : List ℚ) (h1 : adb_grid c times ≠ []) (h2 : gui_grid c times = []) :
    generate_waveform P nu m c times =
      stitch_waveforms (some (generate_adiabatic_part P nu m c (adb_grid c times))) none := by
  simp [generate_waveform, List.isEmpty_eq_false.mpr h1, h2]

lemma generate_waveform_gui_only (P : PolynomialProvider) (nu m c : ℚ)
    (times : List ℚ) (h1 : adb_grid c times = []) (h2 : gui_grid c times ≠ []) :
    generate_waveform P nu m c times =
      stitch_waveforms none (some (generate_gui_part P (gui_grid c times))) := by
  simp [generate_waveform, h1, List.isEmpty_eq_false.mpr h2]

lemma generate_waveform_empty (P : PolynomialProvider) (nu m c : ℚ)
    (times : List ℚ) (h1 : adb_grid c times = []) (h2 : gui_grid c times = []) :
    generate_waveform P nu m c times = .error .emptyDomain := by
  simp [generate_waveform, h1, h2, stitch_waveforms]

/-- After the two parameter guards pass and the time array validates, `init`
is `generate_waveform` on the validated array, packaged with it. -/
lemma init_eq_generate (P : PolynomialProvider) (times : List ℚ) (nu : ℚ)
    (parity : String) (l m c : ℚ) (v : List ℚ) (warn : Bool)
    (hnu : 0 < nu ∧ nu < 0.25) (hpar : parity = "e" ∨ parity = "o")
    (hval : validate_time_array nu times = some (v, warn)) :
    init P times nu parity l m c =
      match generate_waveform P nu m c v with
      | .ok (φ, a, w) => .ok ⟨v, φ, a, w⟩
      | .error e => .error e := by
  rw [init, if_neg (not_not_intro hnu), if_neg (not_not_intro hpar), hval]

lemma getD_last_eq_getLastD (l : List ℚ) : l.getD (l.length - 1) 0 = l.getLastD 0 := by
  rw [List.getLastD_eq_getLast?, List.getLast?_eq_getElem?, List.getD_eq_getElem?_getD]

lemma getD_zero_eq_headD (l : List ℚ) : l.getD 0 0 = l.headD 0 := by
  rw [List.headD_eq_head?, List.head?_eq_getElem?, List.getD_eq_getElem?_getD]

lemma getD_map_of_lt {α β : Type} (f : α → β) (l : List α) (i : ℕ) (d : α)
    (e : β) (hi : i < l.length) : (l.map f).getD i e = f (l.getD i d) := by
  rw [List.getD_eq_getElem _ _ (by simpa using hi), List.getD_eq_getElem _ _ hi,
    List.getElem_map]

lemma getD_zipWith_of_lt {α β γ : Type} (f : α → β → γ) (l₁ : List α)
    (l₂ : List β) (i : ℕ) (d₁ : α) (d₂ : β) (e : γ) (hi : i < l₁.length)
    (hlen : l₂.length = l₁.length) :
    (List.zipWith f l₁ l₂).getD i e = f (l₁.getD i d₁) (l₂.getD i d₂) := by
  have hz : i < (List.zipWith f l₁ l₂).length := by
    simp [List.length_zipWith, hlen]; omega
  rw [List.getD_eq_getElem _ _ hz, List.getD_eq_getElem _ _ hi,
    List.getD_eq_getElem _ _ (by omega : i < l₂.length), List.getElem_zipWith]

/-- Every error of `generate_waveform` is the empty-domain error: the only
failing branch of the stitcher is the one with neither segment present. -/
lemma generate_waveform_error_eq (P : PolynomialProvider) (nu m c : ℚ)
    (v : List ℚ) (e : SynthError)
    (h : generate_waveform P nu m c v = .error e) : e = .emptyDomain := by
  by_cases h1 : adb_grid c v = [] <;> by_cases h2 : gui_grid c v = []
  · rw [generate_waveform_empty P nu m c v h1 h2] at h
    exact (Except.error.injEq _ _).mp h.symm
  · rw [generate_waveform_gui_only P nu m c v h1 h2, stitch_waveforms_gui_only] at h
    exact absurd h (by simp)
  · rw [generate_waveform_adb_only P nu m c v h1 h2, stitch_waveforms_adb_only] at h
    exact absurd h (by simp)
  · rw [generate_waveform_both P nu m c v h1 h2, stitch_waveforms_both] at h
    exact absurd h (by simp)

/-- With valid `nu` and parity, `init` never fails with the parameter error,
whatever the time array, the provider and the multipolar indices. -/
lemma init_ne_invalidParameter (P : PolynomialProvider) (times : List ℚ)
    (nu : ℚ) (parity : String) (l m c : ℚ)
    (hnu : 0 < nu ∧ nu < 0.25) (hpar : parity = "e" ∨ parity = "o") :
    init P times nu parity l m c ≠ .error .invalidParameter := by
  rw [init, if_neg (not_not_intro hnu), if_neg (not_not_intro hpar)]
  cases hv : validate_time_array nu times with
  | none => simp
  | some p =>
      obtain ⟨v, warn⟩ := p
      cases hg : generate_waveform P nu m c v with
      | ok t => obtain ⟨φ, a, w⟩ := t; simp [hg]
      | error e =>
          have he := generate_waveform_error_eq P nu m c v e hg
          subst he; simp [hg]

/-- A concrete polynomial provider, used to instantiate the theorems below at
explicit inputs. -/
def idProvider : PolynomialProvider := ⟨id, id, id, id⟩

/-! ## The claims -/

/-- C3: for every non-empty adiabatic sub-range, the adiabatic evaluator
rescales each sample `t` to `tau = nu * (t - u_cut)` (so `tau = 0` at the
cutoff), sets `phase(t) = adb_phase_polynomial(tau) * m / nu`, and sets
`amplitude(t) = adb_amp_polynomial(tau)` with no rescaling of the amplitude
output. -/
theorem adiabatic_evaluator_formula (P : PolynomialProvider) (nu m c : ℚ)
    (grid : List ℚ) (hne : grid ≠ []) (i : ℕ) (hi : i < grid.length) :
    (generate_adiabatic_part P nu m c grid).time = grid ∧
    (generate_adiabatic_part P nu m c grid).phase.getD i 0 =
      P.adb_phase_polynomial (nu * (grid.getD i 0 - c)) * m / nu ∧
    (generate_adiabatic_part P nu m c grid).amplitude.getD i 0 =
      P.adb_amp_polynomial (nu * (grid.getD i 0 - c)) ∧
    (grid.getD i 0 = c →
      (generate_adiabatic_part P nu m c grid).phase.getD i 0 =
        P.adb_phase_polynomial 0 * m / nu) := by
  refine ⟨rfl, ?_, ?_, ?_⟩
  · rw [generate_adiabatic_part_phase, getD_map_of_lt _ _ _ 0 _ hi]
  · rw [generate_adiabatic_part_amplitude, getD_map_of_lt _ _ _ 0 _ hi]
  · intro h
    rw [generate_adiabatic_part_phase, getD_map_of_lt _ _ _ 0 _ hi, h, sub_self,
      mul_zero]

theorem adiabatic_evaluator_formula_witness :
    (generate_adiabatic_part idProvider 2 3 1 [1, 4]).time = [1, 4] ∧
    (generate_adiabatic_part idProvider 2 3 1 [1, 4]).phase.getD 1 0 =
      idProvider.adb_phase_polynomial (2 * (([1, 4] : List ℚ).getD 1 0 - 1)) * 3 / 2 ∧
    (generate_adiabatic_part idProvider 2 3 1 [1, 4]).amplitude.getD 1 0 =
      idProvider.adb_amp_polynomial (2 * (([1, 4] : List ℚ).getD 1 0 - 1)) ∧
    (([1, 4] : List ℚ).getD 1 0 = 1 →
      (generate_adiabatic_part idProvider 2 3 1 [1, 4]).phase.getD 1 0 =
        idProvider.adb_phase_polynomial 0 * 3 / 2) :=
  adiabatic_evaluator_formula idProvider 2 3 1 [1, 4] (by simp) 1 (by simp)

/-- C4 counterexample: the claim quantifies over every candidate time domain,
but on the empty candidate the validator does not return the domain unchanged
without a warning — the call to `min` on line 43 of mode.py raises, so
validation produces no domain at all. -/
theorem validator_empty_input_cex :
    validate_time_array (1/8 : ℚ) ([] : List ℚ) = none := rfl

/-- C4 (amended to non-empty candidates): for every valid `nu` and every
non-empty candidate time array, if every sample lies in
`[-250/nu, 100]` the array is kept unchanged and no warning is emitted;
if some sample is out of range, the validated array is exactly the in-range
subsequence and the warning fires. -/
theorem validator_truncation (nu : ℚ) (hnu : 0 < nu ∧ nu < 0.25)
    (tIn tOut : List ℚ) (hne : tIn ≠ [])
    (hin : ∀ t ∈ tIn, -2.5e2 / nu ≤ t ∧ t ≤ 100.0)
    (hout : ∃ t ∈ tOut, t < -2.5e2 / nu ∨ (100.0 : ℚ) < t) :
    validate_time_array nu tIn = some (tIn, false) ∧
    validate_time_array nu tOut =
      some (tOut.filter fun t =>
        decide (-2.5e2 / nu ≤ t) && decide (t ≤ 100.0), true) := by
  constructor
  · cases hmn : tIn.min? with
    | none => exact absurd (List.min?_eq_none_iff.mp hmn) hne
    | some mn =>
        cases hmx : tIn.max? with
        | none => exact absurd (List.min?_eq_none_iff.mp (by simp [List.max?_eq_none_iff.mp hmx])) hne
        | some mx =>
            have hmnm : mn ∈ tIn := List.min?_mem (fun a b => min_choice a b) hmn
            have hmxm : mx ∈ tIn := List.max?_mem (fun a b => max_choice a b) hmx
            simp only [validate_time_array, hmn, hmx]
            rw [if_neg (by push_neg; exact ⟨(hin mn hmnm).1, (hin mx hmxm).2⟩)]
  · obtain ⟨t, ht, hor⟩ := hout
    have hne' : tOut ≠ [] := fun h => by simp [h] at ht
    cases hmn : tOut.min? with
    | none => exact absurd (List.min?_eq_none_iff.mp hmn) hne'
    | some mn =>
        cases hmx : tOut.max? with
        | none => exact absurd (List.max?_eq_none_iff.mp hmx) hne'
        | some mx =>
            have hcond : mn < -2.5e2 / nu ∨ (100.0 : ℚ) < mx := by
              rcases hor with h | h
              · left
                have : mn ≤ t :=
                  ((List.le_min?_iff (fun a b c => le_min_iff) hmn).mp le_rfl) t ht
                exact lt_of_le_of_lt this h
              · right
                have : t ≤ mx :=
                  ((List.max?_le_iff (fun a b c => max_le_iff) hmx).mp le_rfl) t ht
                exact lt_of_lt_of_le h this
            simp only [validate_time_array, hmn, hmx]
            rw [if_pos hcond]

theorem validator_truncation_witness :
    validate_time_array (1/8 : ℚ) [-1, 0, 1] = some (([-1, 0, 1] : List ℚ), false) ∧
    validate_time_array (1/8 : ℚ) [-3000, 50] =
      some (([-3000, 50] : List ℚ).filter fun t =>
        decide (-2.5e2 / (1/8 : ℚ) ≤ t) && decide (t ≤ 100.0), true) :=
  validator_truncation (1/8) (by norm_num) [-1, 0, 1] [-3000, 50]
    (by simp) (by norm_num) (by norm_num)

/-- C5: synthesis fails with the parameter error, before any time-domain
processing or regime evaluation (the error is the same for every time array,
every provider and all multipolar indices), whenever `nu` is outside the open
interval `(0, 0.25)` or the parity tag is not one of `e`, `o`; with `nu`
inside the interval and a recognized parity no parameter error is raised. -/
theorem parameter_validation (P : PolynomialProvider) (times : List ℚ)
    (l m c : ℚ)
    (nu1 : ℚ) (parity1 : String) (h1 : ¬ (0 < nu1 ∧ nu1 < 0.25))
    (nu2 : ℚ) (parity2 : String) (h2 : 0 < nu2 ∧ nu2 < 0.25)
    (h2p : parity2 ≠ "e" ∧ parity2 ≠ "o")
    (nu3 : ℚ) (parity3 : String) (h3 : 0 < nu3 ∧ nu3 < 0.25)
    (h3p : parity3 = "e" ∨ parity3 = "o") :
    init P times nu1 parity1 l m c = .error .invalidParameter ∧
    init P times nu2 parity2 l m c = .error .invalidParameter ∧
    init P times nu3 parity3 l m c ≠ .error .invalidParameter := by
  refine ⟨?_, ?_, init_ne_invalidParameter P times nu3 parity3 l m c h3 h3p⟩
  · rw [init, if_pos h1]
  · rw [init, if_neg (not_not_intro h2), if_pos ?_]
    rintro (h | h)
    · exact h2p.1 h
    · exact h2p.2 h

theorem parameter_validation_witness :
    (init idProvider [] 0.3 "e" 2 2 0 = .error .invalidParameter ∧
     init idProvider [] (1/8) "x" 2 2 0 = .error .invalidParameter ∧
     init idProvider [] (1/8) "e" 2 2 0 ≠ .error .invalidParameter) ∧
    init idProvider [] 0 "o" 2 2 0 = .error .invalidParameter :=
  ⟨parameter_validation idProvider [] 2 2 0 0.3 "e" (by norm_num) (1/8) "x"
      (by norm_num) (by decide) (1/8) "e" (by norm_num) (Or.inl rfl),
   (parameter_validation idProvider [] 2 2 0 0 "o" (by norm_num) (1/8) "x"
      (by norm_num) (by decide) (1/8) "e" (by norm_num) (Or.inl rfl)).1⟩

/-- With valid parameters and a non-empty validated array, `init` succeeds and
every output sequence covers the validated domain. -/
lemma init_ok_exists (P : PolynomialProvider) (times v : List ℚ) (nu : ℚ)
    (parity : String) (l m c : ℚ) (warn : Bool)
    (hnu : 0 < nu ∧ nu < 0.25) (hpar : parity = "e" ∨ parity = "o")
    (hval : validate_time_array nu times = some (v, warn)) (hne : v ≠ []) :
    ∃ r : WaveformResult, init P times nu parity l m c = .ok r ∧
      r.time_array = v ∧ r.phase.length = v.length ∧
      r.amplitude.length = v.length ∧ r.waveform.length = v.length := by
  have hsum := adb_grid_length_add_gui_grid_length c v
  have hpos : 0 < v.length := List.length_pos.mpr hne
  rw [init_eq_generate P times nu parity l m c v warn hnu hpar hval]
  by_cases h1 : adb_grid c v = [] <;> by_cases h2 : gui_grid c v = []
  · exfalso
    rw [h1, h2] at hsum
    simp at hsum
    omega
  · rw [generate_waveform_gui_only P nu m c v h1 h2, stitch_waveforms_gui_only]
    have hlen : (gui_grid c v).length = v.length := by
      rw [h1] at hsum; simpa using hsum
    refine ⟨_, rfl, rfl, ?_, ?_, ?_⟩
    · rw [generate_gui_part_phase_length, hlen]
    · rw [generate_gui_part_amplitude_length, hlen]
    · rw [generate_gui_part_waveform_length, hlen]
  · rw [generate_waveform_adb_only P nu m c v h1 h2, stitch_waveforms_adb_only]
    have hlen : (adb_grid c v).length = v.length := by
      rw [h2] at hsum; simpa using hsum
    refine ⟨_, rfl, rfl, ?_, ?_, ?_⟩
    · rw [generate_adiabatic_part_phase_length, hlen]
    · rw [generate_adiabatic_part_amplitude_length, hlen]
    · rw [generate_adiabatic_part_waveform_length, hlen]
  · rw [generate_waveform_both P nu m c v h1 h2, stitch_waveforms_both]
    refine ⟨_, rfl, rfl, ?_, ?_, ?_⟩
    · simpa [generate_adiabatic_part_phase_length, generate_gui_part_phase_length]
        using hsum
    · simpa [generate_adiabatic_part_amplitude_length,
        generate_gui_part_amplitude_length] using hsum
    · simpa [generate_adiabatic_part_waveform_length,
        generate_gui_part_waveform_length] using hsum

/-- C2: for every valid `nu` and every validated non-empty time domain, the
domain is partitioned exhaustively and disjointly at the cutoff (a sample
exactly at the cutoff goes to the adiabatic part, since membership in the
adiabatic sub-grid is `t <= u_cut`), and the resulting times, phase, amplitude
and waveform sequences each have the validated domain's length. -/
theorem domain_partition_lengths (P : PolynomialProvider) (times v : List ℚ)
    (nu : ℚ) (parity : String) (l m c : ℚ) (warn : Bool)
    (hnu : 0 < nu ∧ nu < 0.25) (hpar : parity = "e" ∨ parity = "o")
    (hval : validate_time_array nu times = some (v, warn)) (hne : v ≠ []) :
    (∀ t ∈ v, (t ≤ c ↔ t ∈ adb_grid c v) ∧ (c < t ↔ t ∈ gui_grid c v) ∧
       ¬ (t ∈ adb_grid c v ∧ t ∈ gui_grid c v)) ∧
    (adb_grid c v).length + (gui_grid c v).length = v.length ∧
    ∃ r : WaveformResult, init P times nu parity l m c = .ok r ∧
      r.time_array = v ∧ r.phase.length = v.length ∧
      r.amplitude.length = v.length ∧ r.waveform.length = v.length := by
  refine ⟨?_, adb_grid_length_add_gui_grid_length c v,
    init_ok_exists P times v nu parity l m c warn hnu hpar hval hne⟩
  intro t ht
  refine ⟨⟨fun h => (mem_adb_grid c v t).mpr ⟨ht, h⟩,
      fun h => ((mem_adb_grid c v t).mp h).2⟩,
    ⟨fun h => (mem_gui_grid c v t).mpr ⟨ht, h⟩,
      fun h => ((mem_gui_grid c v t).mp h).2⟩, ?_⟩
  rintro ⟨ha, hg⟩
  exact absurd ((mem_gui_grid c v t).mp hg).2 (not_lt.mpr ((mem_adb_grid c v t).mp ha).2)

theorem domain_partition_lengths_witness :
    (∀ t ∈ ([-1, 0, 1] : List ℚ),
       (t ≤ 0 ↔ t ∈ adb_grid 0 [-1, 0, 1]) ∧ (0 < t ↔ t ∈ gui_grid 0 [-1, 0, 1]) ∧
       ¬ (t ∈ adb_grid 0 [-1, 0, 1] ∧ t ∈ gui_grid 0 [-1, 0, 1])) ∧
    (adb_grid 0 [-1, 0, 1]).length + (gui_grid 0 [-1, 0, 1]).length =
      ([-1, 0, 1] : List ℚ).length ∧
    ∃ r : WaveformResult, init idProvider [-1, 0, 1] (1/8) "e" 2 2 0 = .ok r ∧
      r.time_array = [-1, 0, 1] ∧ r.phase.length = ([-1, 0, 1] : List ℚ).length ∧
      r.amplitude.length = ([-1, 0, 1] : List ℚ).length ∧
      r.waveform.length = ([-1, 0, 1] : List ℚ).length :=
  domain_partition_lengths idProvider [-1, 0, 1] [-1, 0, 1] (1/8) "e" 2 2 0 false
    (by norm_num) (Or.inl rfl)
    (by norm_num [validate_time_array, List.min?, List.max?, List.foldl]) (by simp)

/-- C8: if the validated time domain is empty, synthesis fails with the
empty-domain error (the defensive no-segment branch of the stitcher);
conversely, for a validated non-empty domain synthesis succeeds, so that
branch is never reached. -/
theorem empty_domain_error (P : PolynomialProvider) (nu : ℚ) (parity : String)
    (l m c : ℚ) (hnu : 0 < nu ∧ nu < 0.25) (hpar : parity = "e" ∨ parity = "o")
    (times1 : List ℚ) (warn1 : Bool)
    (h1 : validate_time_array nu times1 = some ([], warn1))
    (times2 v2 : List ℚ) (warn2 : Bool)
    (h2 : validate_time_array nu times2 = some (v2, warn2)) (hne2 : v2 ≠ []) :
    init P times1 nu parity l m c = .error .emptyDomain ∧
    ∃ r : WaveformResult, init P times2 nu parity l m c = .ok r := by
  constructor
  · rw [init_eq_generate P times1 nu parity l m c [] warn1 hnu hpar h1,
      generate_waveform_empty P nu m c [] rfl rfl]
  · obtain ⟨r, hr, -, -, -, -⟩ :=
      init_ok_exists P times2 v2 nu parity l m c warn2 hnu hpar h2 hne2
    exact ⟨r, hr⟩

theorem empty_domain_error_witness :
    init idProvider [-3000] (1/8) "e" 2 2 0 = .error .emptyDomain ∧
    ∃ r : WaveformResult, init idProvider [1] (1/8) "e" 2 2 0 = .ok r :=
  empty_domain_error idProvider (1/8) "e" 2 2 0 (by norm_num) (Or.inl rfl)
    [-3000] true
    (by norm_num [validate_time_array, List.min?, List.max?, List.foldl, List.filter])
    [1] [1] false
    (by norm_num [validate_time_array, List.min?, List.max?, List.foldl]) (by simp)

/-- C1: when the validated domain has samples in both regimes, the stitcher
computes `shift = adiabatic.phase[-1] - gui.phase[0]` and subtracts it from
every adiabatic phase value, so in the result the phase at the last adiabatic
index equals the phase at the first GUI index exactly. -/
theorem stitch_phase_continuity (P : PolynomialProvider) (times v : List ℚ)
    (nu : ℚ) (parity : String) (l m c : ℚ) (warn : Bool)
    (hnu : 0 < nu ∧ nu < 0.25) (hpar : parity = "e" ∨ parity = "o")
    (hval : validate_time_array nu times = some (v, warn))
    (hadb : adb_grid c v ≠ []) (hgui : gui_grid c v ≠ []) :
    ∃ r : WaveformResult, init P times nu parity l m c = .ok r ∧
      r.phase =
        (generate_adiabatic_part P nu m c (adb_grid c v)).phase.map
          (fun φ => φ -
            ((generate_adiabatic_part P nu m c (adb_grid c v)).phase.getLastD 0 -
              (generate_gui_part P (gui_grid c v)).phase.headD 0)) ++
        (generate_gui_part P (gui_grid c v)).phase ∧
      1 ≤ (adb_grid c v).length ∧
      (adb_grid c v).length < r.phase.length ∧
      r.phase.getD ((adb_grid c v).length - 1) 0 =
        r.phase.getD (adb_grid c v).length 0 := by
  rw [init_eq_generate P times nu parity l m c v warn hnu hpar hval,
    generate_waveform_both P nu m c v hadb hgui, stitch_waveforms_both]
  have hn : 0 < (adb_grid c v).length := List.length_pos.mpr hadb
  have hAlen : (generate_adiabatic_part P nu m c (adb_grid c v)).phase.length =
      (adb_grid c v).length := generate_adiabatic_part_phase_length P nu m c _
  have hGpos : 0 < (generate_gui_part P (gui_grid c v)).phase.length := by
    rw [generate_gui_part_phase_length]
    exact List.length_pos.mpr hgui
  refine ⟨_, rfl, rfl, hn, ?_, ?_⟩
  · simp only [List.length_append, List.length_map, hAlen]
    omega
  · show (List.map _ _ ++ _).getD _ 0 = (List.map _ _ ++ _).getD _ 0
    have hmaplen : ((generate_adiabatic_part P nu m c (adb_grid c v)).phase.map
        (fun φ => φ -
          ((generate_adiabatic_part P nu m c (adb_grid c v)).phase.getLastD 0 -
            (generate_gui_part P (gui_grid c v)).phase.headD 0))).length =
        (adb_grid c v).length := by
      rw [List.length_map, hAlen]
    rw [List.getD_append _ _ 0 _ (by omega),
      List.getD_append_right _ _ 0 _ (by omega), hmaplen,
      getD_map_of_lt _ _ _ 0 _ (by omega), Nat.sub_self, getD_zero_eq_headD]
    have hlast : (generate_adiabatic_part P nu m c (adb_grid c v)).phase.getD
        ((adb_grid c v).length - 1) 0 =
        (generate_adiabatic_part P nu m c (adb_grid c v)).phase.getLastD 0 := by
      rw [← getD_last_eq_getLastD, hAlen]
    rw [hlast, sub_sub_cancel]

theorem stitch_phase_continuity_witness :
    ∃ r : WaveformResult, init idProvider [-1, 1] (1/8) "e" 2 2 0 = .ok r ∧
      r.phase =
        (generate_adiabatic_part idProvider (1/8) 2 0 (adb_grid 0 [-1, 1])).phase.map
          (fun φ => φ -
            ((generate_adiabatic_part idProvider (1/8) 2 0 (adb_grid 0 [-1, 1])).phase.getLastD 0 -
              (generate_gui_part idProvider (gui_grid 0 [-1, 1])).phase.headD 0)) ++
        (generate_gui_part idProvider (gui_grid 0 [-1, 1])).phase ∧
      1 ≤ (adb_grid 0 [-1, 1]).length ∧
      (adb_grid 0 [-1, 1]).length < r.phase.length ∧
      r.phase.getD ((adb_grid 0 [-1, 1]).length - 1) 0 =
        r.phase.getD (adb_grid 0 [-1, 1]).length 0 :=
  stitch_phase_continuity idProvider [-1, 1] [-1, 1] (1/8) "e" 2 2 0 false
    (by norm_num) (Or.inl rfl)
    (by norm_num [validate_time_array, List.min?, List.max?, List.foldl])
    (by norm_num [adb_grid, List.filter]) (by norm_num [gui_grid, List.filter])

/-- C9: the stitcher's continuity correction modifies only the adiabatic
phase and waveform values: the result's times are the validated domain
unchanged, its amplitude is exactly the concatenation of the raw adiabatic and
GUI amplitudes, and the GUI tail of the phase and waveform sequences is the
raw GUI segment. -/
theorem stitch_frame_effect (P : PolynomialProvider) (times v : List ℚ)
    (nu : ℚ) (parity : String) (l m c : ℚ) (warn : Bool)
    (hnu : 0 < nu ∧ nu < 0.25) (hpar : parity = "e" ∨ parity = "o")
    (hval : validate_time_array nu times = some (v, warn))
    (hadb : adb_grid c v ≠ []) (hgui : gui_grid c v ≠ []) :
    ∃ r : WaveformResult, init P times nu parity l m c = .ok r ∧
      r.time_array = v ∧
      r.amplitude = (generate_adiabatic_part P nu m c (adb_grid c v)).amplitude ++
        (generate_gui_part P (gui_grid c v)).amplitude ∧
      r.phase.drop (adb_grid c v).length =
        (generate_gui_part P (gui_grid c v)).phase ∧
      r.waveform.drop (adb_grid c v).length =
        (generate_gui_part P (gui_grid c v)).waveform := by
  rw [init_eq_generate P times nu parity l m c v warn hnu hpar hval,
    generate_waveform_both P nu m c v hadb hgui, stitch_waveforms_both]
  refine ⟨_, rfl, rfl, rfl, ?_, ?_⟩
  · show (List.map _ _ ++ _).drop _ = _
    have hlen : ((generate_adiabatic_part P nu m c (adb_grid c v)).phase.map
        (fun φ => φ -
          ((generate_adiabatic_part P nu m c (adb_grid c v)).phase.getLastD 0 -
            (generate_gui_part P (gui_grid c v)).phase.headD 0))).length =
        (adb_grid c v).length := by
      rw [List.length_map, generate_adiabatic_part_phase_length]
    rw [← hlen, List.drop_left]
  · show (List.map _ _ ++ _).drop _ = _
    have hlen : ((generate_adiabatic_part P nu m c (adb_grid c v)).waveform.map
        (fun w => w * Complex.exp
          (-Complex.I *
            (((generate_adiabatic_part P nu m c (adb_grid c v)).phase.getLastD 0 -
              (generate_gui_part P (gui_grid c v)).phase.headD 0 : ℚ) : ℂ)))).length =
        (adb_grid c v).length := by
      rw [List.length_map, generate_adiabatic_part_waveform_length]
    rw [← hlen, List.drop_left]

theorem stitch_frame_effect_witness :
    ∃ r : WaveformResult, init idProvider [-1, 1] (1/8) "e" 2 2 0 = .ok r ∧
      r.time_array = [-1, 1] ∧
      r.amplitude = (generate_adiabatic_part idProvider (1/8) 2 0 (adb_grid 0 [-1, 1])).amplitude ++
        (generate_gui_part idProvider (gui_grid 0 [-1, 1])).amplitude ∧
      r.phase.drop (adb_grid 0 [-1, 1]).length =
        (generate_gui_part idProvider (gui_grid 0 [-1, 1])).phase ∧
      r.waveform.drop (adb_grid 0 [-1, 1]).length =
        (generate_gui_part idProvider (gui_grid 0 [-1, 1])).waveform :=
  stitch_frame_effect idProvider [-1, 1] [-1, 1] (1/8) "e" 2 2 0 false
    (by norm_num) (Or.inl rfl)
    (by norm_num [validate_time_array, List.min?, List.max?, List.foldl])
    (by norm_num [adb_grid, List.filter]) (by norm_num [gui_grid, List.filter])

/-- Raw adiabatic segment satisfies `waveform[i] = amplitude[i] * exp(i * phase[i])`. -/
lemma adiabatic_segment_consistency (P : PolynomialProvider) (nu m c : ℚ)
    (grid : List ℚ) (i : ℕ) (hi : i < grid.length) :
    (generate_adiabatic_part P nu m c grid).waveform.getD i 0 =
      ((generate_adiabatic_part P nu m c grid).amplitude.getD i 0 : ℂ) *
        Complex.exp (Complex.I *
          ((generate_adiabatic_part P nu m c grid).phase.getD i 0 : ℂ)) := by
  rw [generate_adiabatic_part_waveform,
    getD_zipWith_of_lt mkWaveform _ _ i 0 0 0
      (by rw [generate_adiabatic_part_amplitude_length]; exact hi)
      (by rw [generate_adiabatic_part_phase_length,
        generate_adiabatic_part_amplitude_length])]
  rfl

/-- Raw GUI segment satisfies `waveform[i] = amplitude[i] * exp(i * phase[i])`. -/
lemma gui_segment_consistency (P : PolynomialProvider) (grid : List ℚ) (i : ℕ)
    (hi : i < grid.length) :
    (generate_gui_part P grid).waveform.getD i 0 =
      ((generate_gui_part P grid).amplitude.getD i 0 : ℂ) *
        Complex.exp (Complex.I * ((generate_gui_part P grid).phase.getD i 0 : ℂ)) := by
  rw [generate_gui_part_waveform,
    getD_zipWith_of_lt mkWaveform _ _ i 0 0 0
      (by rw [generate_gui_part_amplitude_length]; exact hi)
      (by rw [generate_gui_part_phase_length, generate_gui_part_amplitude_length])]
  rfl

/-- Shifting the phase by `s` while multiplying the waveform by `exp(-i s)`
preserves the consistency invariant, sample-wise. -/
lemma shift_preserves_consistency (a φ s : ℚ)
    (h : (w : ℂ) = (a : ℂ) * Complex.exp (Complex.I * (φ : ℂ))) :
    w * Complex.exp (-Complex.I * (s : ℂ)) =
      (a : ℂ) * Complex.exp (Complex.I * ((φ - s : ℚ) : ℂ)) := by
  rw [h]
  push_cast
  have hsplit : Complex.I * ((φ : ℂ) - (s : ℂ)) =
      Complex.I * (φ : ℂ) + -Complex.I * (s : ℂ) := by ring
  rw [hsplit, Complex.exp_add]
  ring

/-- C6: `waveform[i] = amplitude[i] * exp(i * phase[i])` holds at every index
of each raw regime segment and, because the stitcher subtracts the shift from
the phases while multiplying the waveform values by `exp(-i * shift)`, at
every index of the final result. -/
theorem waveform_consistency_invariant (P : PolynomialProvider)
    (times v : List ℚ) (nu : ℚ) (parity : String) (l m c : ℚ) (warn : Bool)
    (hnu : 0 < nu ∧ nu < 0.25) (hpar : parity = "e" ∨ parity = "o")
    (hval : validate_time_array nu times = some (v, warn)) (hne : v ≠ []) :
    (∀ grid : List ℚ, ∀ i, i < grid.length →
      (generate_adiabatic_part P nu m c grid).waveform.getD i 0 =
        ((generate_adiabatic_part P nu m c grid).amplitude.getD i 0 : ℂ) *
          Complex.exp (Complex.I *
            ((generate_adiabatic_part P nu m c grid).phase.getD i 0 : ℂ))) ∧
    (∀ grid : List ℚ, ∀ i, i < grid.length →
      (generate_gui_part P grid).waveform.getD i 0 =
        ((generate_gui_part P grid).amplitude.getD i 0 : ℂ) *
          Complex.exp (Complex.I * ((generate_gui_part P grid).phase.getD i 0 : ℂ))) ∧
    ∃ r : WaveformResult, init P times nu parity l m c = .ok r ∧
      ∀ i, i < r.waveform.length →
        r.waveform.getD i 0 = (r.amplitude.getD i 0 : ℂ) *
          Complex.exp (Complex.I * (r.phase.getD i 0 : ℂ)) := by
  refine ⟨fun grid i hi => adiabatic_segment_consistency P nu m c grid i hi,
    fun grid i hi => gui_segment_consistency P grid i hi, ?_⟩
  have hsum := adb_grid_length_add_gui_grid_length c v
  have hpos : 0 < v.length := List.length_pos.mpr hne
  rw [init_eq_generate P times nu parity l m c v warn hnu hpar hval]
  by_cases h1 : adb_grid c v = [] <;> by_cases h2 : gui_grid c v = []
  · exfalso
    rw [h1, h2] at hsum
    simp at hsum
    omega
  · rw [generate_waveform_gui_only P nu m c v h1 h2, stitch_waveforms_gui_only]
    refine ⟨_, rfl, fun i hi => ?_⟩
    exact gui_segment_consistency P (gui_grid c v) i
      (by rw [← generate_gui_part_waveform_length P (gui_grid c v)]; exact hi)
  · rw [generate_waveform_adb_only P nu m c v h1 h2, stitch_waveforms_adb_only]
    refine ⟨_, rfl, fun i hi => ?_⟩
    exact adiabatic_segment_consistency P nu m c (adb_grid c v) i
      (by rw [← generate_adiabatic_part_waveform_length P nu m c (adb_grid c v)]; exact hi)
  · rw [generate_waveform_both P nu m c v h1 h2, stitch_waveforms_both]
    refine ⟨_, rfl, fun i hi => ?_⟩
    have hn : 0 < (adb_grid c v).length := List.length_pos.mpr h1
    have hWlen : (generate_adiabatic_part P nu m c (adb_grid c v)).waveform.length =
        (adb_grid c v).length := generate_adiabatic_part_waveform_length P nu m c _
    have hAlen : (generate_adiabatic_part P nu m c (adb_grid c v)).amplitude.length =
        (adb_grid c v).length := generate_adiabatic_part_amplitude_length P nu m c _
    have hPlen : (generate_adiabatic_part P nu m c (adb_grid c v)).phase.length =
        (adb_grid c v).length := generate_adiabatic_part_phase_length P nu m c _
    have hGW : (generate_gui_part P (gui_grid c v)).waveform.length =
        (gui_grid c v).length := generate_gui_part_waveform_length P _
    have hGA : (generate_gui_part P (gui_grid c v)).amplitude.length =
        (gui_grid c v).length := generate_gui_part_amplitude_length P _
    have hGP : (generate_gui_part P (gui_grid c v)).phase.length =
        (gui_grid c v).length := generate_gui_part_phase_length P _
    have hitot : i < (adb_grid c v).length + (gui_grid c v).length := by
      simpa [List.length_append, List.length_map, hWlen, hGW] using hi
    by_cases hin : i < (adb_grid c v).length
    · show (List.map _ _ ++ _).getD _ 0 = _
      rw [List.getD_append _ _ 0 _ (by simpa [List.length_map, hWlen] using hin),
        List.getD_append _ _ 0 _ (by simpa [hAlen] using hin),
        List.getD_append _ _ 0 _ (by simpa [List.length_map, hPlen] using hin),
        getD_map_of_lt _ _ _ 0 _ (by simpa [hWlen] using hin),
        getD_map_of_lt _ _ _ 0 _ (by simpa [hPlen] using hin)]
      exact shift_preserves_consistency _ _ _
        (adiabatic_segment_consistency P nu m c (adb_grid c v) i hin)
    · show (List.map _ _ ++ _).getD _ 0 = _
      have hge1 : ((generate_adiabatic_part P nu m c (adb_grid c v)).waveform.map
          (fun w => w * Complex.exp
            (-Complex.I *
              (((generate_adiabatic_part P nu m c (adb_grid c v)).phase.getLastD 0 -
                (generate_gui_part P (gui_grid c v)).phase.headD 0 : ℚ) : ℂ)))).length ≤ i := by
        simpa [List.length_map, hWlen] using not_lt.mp hin
      have hge2 : ((generate_adiabatic_part P nu m c (adb_grid c v)).phase.map
          (fun φ => φ -
            ((generate_adiabatic_part P nu m c (adb_grid c v)).phase.getLastD 0 -
              (generate_gui_part P (gui_grid c v)).phase.headD 0))).length ≤ i := by
        simpa [List.length_map, hPlen] using not_lt.mp hin
      have hge3 : (generate_adiabatic_part P nu m c (adb_grid c v)).amplitude.length ≤ i := by
        simpa [hAlen] using not_lt.mp hin
      rw [List.getD_append_right _ _ 0 _ hge1, List.getD_append_right _ _ 0 _ hge3,
        List.getD_append_right _ _ 0 _ hge2]
      simp only [List.length_map, hWlen, hAlen, hPlen]
      exact gui_segment_consistency P (gui_grid c v) (i - (adb_grid c v).length)
        (by omega)

theorem waveform_consistency_invariant_witness :
    (∀ grid : List ℚ, ∀ i, i < grid.length →
      (generate_adiabatic_part idProvider (1/8) 2 0 grid).waveform.getD i 0 =
        ((generate_adiabatic_part idProvider (1/8) 2 0 grid).amplitude.getD i 0 : ℂ) *
          Complex.exp (Complex.I *
            ((generate_adiabatic_part idProvider (1/8) 2 0 grid).phase.getD i 0 : ℂ))) ∧
    (∀ grid : List ℚ, ∀ i, i < grid.length →
      (generate_gui_part idProvider grid).waveform.getD i 0 =
        ((generate_gui_part idProvider grid).amplitude.getD i 0 : ℂ) *
          Complex.exp (Complex.I * ((generate_gui_part idProvider grid).phase.getD i 0 : ℂ))) ∧
    ∃ r : WaveformResult, init idProvider [-1, 1] (1/8) "e" 2 2 0 = .ok r ∧
      ∀ i, i < r.waveform.length →
        r.waveform.getD i 0 = (r.amplitude.getD i 0 : ℂ) *
          Complex.exp (Complex.I * (r.phase.getD i 0 : ℂ)) :=
  waveform_consistency_invariant idProvider [-1, 1] [-1, 1] (1/8) "e" 2 2 0 false
    (by norm_num) (Or.inl rfl)
    (by norm_num [validate_time_array, List.min?, List.max?, List.foldl]) (by simp)

/-- Two providers agreeing on the adiabatic models produce the same adiabatic
segment: adiabatic evaluation reads nothing else from the provider. -/
lemma generate_adiabatic_part_congr (P Q : PolynomialProvider)
    (h1 : Q.adb_phase_polynomial = P.adb_phase_polynomial)
    (h2 : Q.adb_amp_polynomial = P.adb_amp_polynomial) (nu m c : ℚ)
    (g : List ℚ) :
    generate_adiabatic_part Q nu m c g = generate_adiabatic_part P nu m c g := by
  simp [generate_adiabatic_part, h1, h2]

/-- Two providers agreeing on the GUI models produce the same GUI segment. -/
lemma generate_gui_part_congr (P Q : PolynomialProvider)
    (h1 : Q.gui_phase_polynomial = P.gui_phase_polynomial)
    (h2 : Q.gui_amp_polynomial = P.gui_amp_polynomial) (g : List ℚ) :
    generate_gui_part Q g = generate_gui_part P g := by
  simp [generate_gui_part, h1, h2]

/-- C7: a domain strictly below the cutoff yields the raw adiabatic segment
verbatim, with no phase shift, and the output does not depend on the GUI
models (no GUI evaluation is invoked); symmetrically a domain entirely above
the cutoff yields the raw GUI segment verbatim and does not depend on the
adiabatic models. -/
theorem single_regime_passthrough (P Pg Pa : PolynomialProvider)
    (nu m c : ℚ) (timesLow timesHigh : List ℚ)
    (hlow : ∀ t ∈ timesLow, t < c) (hlowne : timesLow ≠ [])
    (hhigh : ∀ t ∈ timesHigh, c < t) (hhighne : timesHigh ≠ [])
    (hPg : Pg.adb_phase_polynomial = P.adb_phase_polynomial ∧
      Pg.adb_amp_polynomial = P.adb_amp_polynomial)
    (hPa : Pa.gui_phase_polynomial = P.gui_phase_polynomial ∧
      Pa.gui_amp_polynomial = P.gui_amp_polynomial) :
    (generate_waveform P nu m c timesLow =
        .ok ((generate_adiabatic_part P nu m c timesLow).phase,
          (generate_adiabatic_part P nu m c timesLow).amplitude,
          (generate_adiabatic_part P nu m c timesLow).waveform) ∧
      generate_waveform Pg nu m c timesLow = generate_waveform P nu m c timesLow) ∧
    (generate_waveform P nu m c timesHigh =
        .ok ((generate_gui_part P timesHigh).phase,
          (generate_gui_part P timesHigh).amplitude,
          (generate_gui_part P timesHigh).waveform) ∧
      generate_waveform Pa nu m c timesHigh = generate_waveform P nu m c timesHigh) := by
  have e1 : adb_grid c timesLow = timesLow :=
    List.filter_eq_self.mpr fun t ht => by
      simpa using le_of_lt (hlow t ht)
  have e2 : gui_grid c timesLow = [] :=
    List.filter_eq_nil_iff.mpr fun t ht => by
      simpa using le_of_lt (hlow t ht)
  have e3 : adb_grid c timesHigh = [] :=
    List.filter_eq_nil_iff.mpr fun t ht => by
      simpa using hhigh t ht
  have e4 : gui_grid c timesHigh = timesHigh :=
    List.filter_eq_self.mpr fun t ht => by
      simpa using hhigh t ht
  have e1g : adb_grid c timesLow ≠ [] := by rw [e1]; exact hlowne
  have e4g : gui_grid c timesHigh ≠ [] := by rw [e4]; exact hhighne
  refine ⟨⟨?_, ?_⟩, ?_, ?_⟩
  · rw [generate_waveform_adb_only P nu m c timesLow e1g e2,
      stitch_waveforms_adb_only, e1]
  · rw [generate_waveform_adb_only Pg nu m c timesLow e1g e2,
      generate_waveform_adb_only P nu m c timesLow e1g e2,
      generate_adiabatic_part_congr P Pg hPg.1 hPg.2]
  · rw [generate_waveform_gui_only P nu m c timesHigh e3 e4g,
      stitch_waveforms_gui_only, e4]
  · rw [generate_waveform_gui_only Pa nu m c timesHigh e3 e4g,
      generate_waveform_gui_only P nu m c timesHigh e3 e4g,
      generate_gui_part_congr P Pa hPa.1 hPa.2]

/-- A provider whose GUI models differ from `idProvider`. -/
def guiZeroProvider : PolynomialProvider := ⟨id, id, fun _ => 0, fun _ => 0⟩

/-- A provider whose adiabatic models differ from `idProvider`. -/
def adbZeroProvider : PolynomialProvider := ⟨fun _ => 0, fun _ => 0, id, id⟩

theorem single_regime_passthrough_witness :
    (generate_waveform idProvider (1/8) 2 0 [-1] =
        .ok ((generate_adiabatic_part idProvider (1/8) 2 0 [-1]).phase,
          (generate_adiabatic_part idProvider (1/8) 2 0 [-1]).amplitude,
          (generate_adiabatic_part idProvider (1/8) 2 0 [-1]).waveform) ∧
      generate_waveform guiZeroProvider (1/8) 2 0 [-1] =
        generate_waveform idProvider (1/8) 2 0 [-1]) ∧
    (generate_waveform idProvider (1/8) 2 0 [1] =
        .ok ((generate_gui_part idProvider [1]).phase,
          (generate_gui_part idProvider [1]).amplitude,
          (generate_gui_part idProvider [1]).waveform) ∧
      generate_waveform adbZeroProvider (1/8) 2 0 [1] =
        generate_waveform idProvider (1/8) 2 0 [1]) :=
  single_regime_passthrough idProvider guiZeroProvider adbZeroProvider (1/8) 2 0
    [-1] [1] (by norm_num) (by simp) (by norm_num) (by simp) ⟨rfl, rfl⟩ ⟨rfl, rfl⟩

/-- The adiabatic evaluator with the phase multiplier abstracted into a single
coefficient.  The spec (§4.3) describes the adiabatic phase as the polynomial
value multiplied by `m / nu`; this refinement-style variant takes that factor
as one argument `coeff`, so that the dependence of the pipeline on the
multipolar index `m` can be stated exactly. -/
noncomputable def generate_adiabatic_part_factor (P : PolynomialProvider)
    (nu coeff u_cut_value : ℚ) (time_grid : List ℚ) : Segment :=
  let nu_scaled_time := time_grid.map fun t => nu * (t - u_cut_value)
  let phase := nu_scaled_time.map fun τ => P.adb_phase_polynomial τ * coeff
  let amplitude := nu_scaled_time.map P.adb_amp_polynomial
  let waveform := List.zipWith mkWaveform amplitude phase
  ⟨time_grid, phase, amplitude, waveform⟩

/-- `generate_waveform` with the abstracted adiabatic phase coefficient. -/
noncomputable def generate_waveform_factor (P : PolynomialProvider)
    (nu coeff u_cut_value : ℚ) (time_array : List ℚ) :
    Except SynthError (List ℚ × List ℚ × List ℂ) :=
  let adb_time_grid := adb_grid u_cut_value time_array
  let gui_time_grid := gui_grid u_cut_value time_array
  let adiabatic := if adb_time_grid.isEmpty then none
    else some (generate_adiabatic_part_factor P nu coeff u_cut_value adb_time_grid)
  let gui := if gui_time_grid.isEmpty then none
    else some (generate_gui_part P gui_time_grid)
  stitch_waveforms adiabatic gui

/-- `init` with the abstracted adiabatic phase coefficient: takes neither `l`
nor `m`. -/
noncomputable def init_factor (P : PolynomialProvider) (time_array : List ℚ)
    (nu : ℚ) (parity : String) (coeff u_cut_value : ℚ) :
    Except SynthError WaveformResult :=
  if ¬ (0 < nu ∧ nu < 0.25) then .error .invalidParameter
  else if ¬ (parity = "e" ∨ parity = "o") then .error .invalidParameter
  else
    match validate_time_array nu time_array with
    | none => .error .emptyInput
    | some (validated, _warned) =>
        match generate_waveform_factor P nu coeff u_cut_value validated with
        | .ok (φ, a, w) => .ok ⟨validated, φ, a, w⟩
        | .error e => .error e

/-- C10: the multipolar indices are never validated — with valid `nu` and
parity no parameter error is raised whatever `l` and `m` are, including zero
and negative values — the output is entirely independent of `l`, and `m`
influences the result only through the factor `m / nu` applied to the
adiabatic phase (the whole pipeline factors through `init_factor` applied to
`m / nu`). -/
theorem multipole_independence (P : PolynomialProvider) (times : List ℚ)
    (nu : ℚ) (parity : String) (l l' m c : ℚ)
    (hnu : 0 < nu ∧ nu < 0.25) (hpar : parity = "e" ∨ parity = "o") :
    init P times nu parity l m c = init P times nu parity l' m c ∧
    init P times nu parity l m c = init_factor P times nu parity (m / nu) c ∧
    init P times nu parity l m c ≠ .error .invalidParameter := by
  refine ⟨rfl, ?_, init_ne_invalidParameter P times nu parity l m c hnu hpar⟩
  have hpart : ∀ g : List ℚ, generate_adiabatic_part P nu m c g =
      generate_adiabatic_part_factor P nu (m / nu) c g := by
    intro g
    simp [generate_adiabatic_part, generate_adiabatic_part_factor, mul_div_assoc]
  have hgw : ∀ w : List ℚ, generate_waveform P nu m c w =
      generate_waveform_factor P nu (m / nu) c w := by
    intro w
    simp only [generate_waveform, generate_waveform_factor, hpart]
  simp only [init, init_factor, if_neg (not_not_intro hnu),
    if_neg (not_not_intro hpar)]
  cases hv : validate_time_array nu times with
  | none => rfl
  | some p => obtain ⟨v, warn⟩ := p; simp only [hgw]

theorem multipole_independence_witness :
    init idProvider [-1, 1] (1/8) "e" (-2) (-3) 0 =
      init idProvider [-1, 1] (1/8) "e" 0 (-3) 0 ∧
    init idProvider [-1, 1] (1/8) "e" (-2) (-3) 0 =
      init_factor idProvider [-1, 1] (1/8) "e" ((-3) / (1/8)) 0 ∧
    init idProvider [-1, 1] (1/8) "e" (-2) (-3) 0 ≠ .error .invalidParameter :=
  multipole_independence idProvider [-1, 1] (1/8) "e" (-2) 0 (-3) 0
    (by norm_num) (Or.inl rfl)

end UniversalWaveforms
